import Mathlib

/-!
Verification of the Binance ARDL trading engine (shallow embedding).

Each definition below is translated from the Python sources under `src/`:
`src/execution/order_manager.py`, `src/execution/position_manager.py`,
`src/execution/executor.py`, `src/strategy/risk_manager.py`,
`src/strategy/signals.py`, `src/utils/retry.py` and `src/main.py`.
Floats are modelled as rationals (`Rat`), Python exceptions as the error
side of `Except`, and Python dicts keyed by strings as association lists.
-/

namespace BinanceARDL

/-! ### Order data model  (src/execution/order_manager.py, lines 9-26) -/

/-- `OrderStatus` enum from `order_manager.py`. -/
inductive OrderStatus where
  | pending
  | filled
  | cancelled
  | failed
deriving DecidableEq, Repr

/-- The `Order` dataclass from `order_manager.py`.  Timestamps are dropped:
no claim mentions them and no code path reads them back. -/
structure Order where
  id : String
  symbol : String
  side : String
  orderType : String
  amount : Rat
  price : Option Rat
  status : OrderStatus
  exchangeOrderId : Option String := none
  filledAmount : Rat := 0
  averagePrice : Rat := 0
deriving DecidableEq, Repr

/-! ### Retry wrapper  (src/utils/retry.py, `retry_async`, lines 11-68)

The decorated coroutine is modelled as `f : Nat → Except E A` giving the
outcome of the venue call on each attempt (0-based).  `retryGo` mirrors the
`while attempt < max_attempts` loop: on success return the value; on an
exception increment `attempt`, raise at once when `should_retry` rejects the
error, raise when the budget is exhausted, otherwise sleep (irrelevant here)
and loop.  The pair's second component counts how many times `f` was
actually invoked.  Python's implicit `return None` when the loop is never
entered (`max_attempts = 0`) is the `.ok none` fall-through. -/

def retryGo (shouldRetry : Option (E → Bool)) (maxAttempts : Nat)
    (f : Nat → Except E A) :
    (remaining : Nat) → (attempt : Nat) → (calls : Nat) →
    Except E (Option A) × Nat
  | 0, _attempt, calls => (.ok none, calls)
  | remaining + 1, attempt, calls =>
    match f attempt with
    | .ok a => (.ok (some a), calls + 1)
    | .error e =>
      if (shouldRetry.map fun p => !(p e)).getD false then
        (.error e, calls + 1)
      else if maxAttempts ≤ attempt + 1 then
        (.error e, calls + 1)
      else
        retryGo shouldRetry maxAttempts f remaining (attempt + 1) (calls + 1)

/-- The wrapper produced by `retry_async(...)` applied to one call.  The
loop guard `attempt < max_attempts` is carried as the fuel
`remaining = max_attempts - attempt`, starting from `attempt = 0` with
fuel `max_attempts`. -/
def retryRun (shouldRetry : Option (E → Bool)) (maxAttempts : Nat)
    (f : Nat → Except E A) : Except E (Option A) × Nat :=
  retryGo shouldRetry maxAttempts f maxAttempts 0 0

/-- Python `pat in s` on strings, on explicit character lists: does the
haystack start with the pattern? -/
def startsWithChars : List Char → List Char → Bool
  | [], _ => true
  | _ :: _, [] => false
  | p :: ps, h :: hs => p == h && startsWithChars ps hs

/-- Python `pat in s` on strings, on explicit character lists: contiguous
substring test. -/
def hasSub (pat : List Char) : List Char → Bool
  | [] => pat.isEmpty
  | h :: hs => startsWithChars pat (h :: hs) || hasSub pat hs

/-- Python `str.lower()`, characterwise. -/
def lowerChars (s : String) : List Char := s.data.map Char.toLower

/-- `should_retry_order` from `RetryStrategies.order_retry`
(src/utils/retry.py, lines 141-146): an error whose lowered message contains
"insufficient", "invalid" or "rejected" must not be retried. -/
def shouldRetryOrder (msg : String) : Bool :=
  !(["insufficient", "invalid", "rejected"].any fun m =>
      hasSub m.data (lowerChars msg))

/-! ### Position manager  (src/execution/position_manager.py) -/

/-- The `Position` dataclass (lines 6-16).  `entry_time`/`exit_time` are
abstract tick counts. -/
structure Position where
  symbol : String
  side : String
  entryPrice : Rat
  amount : Rat
  entryTime : Nat
  exitPrice : Option Rat := none
  exitTime : Option Nat := none
  pnl : Rat := 0
  status : String := "open"
deriving DecidableEq, Repr

/-- `PositionManager.close_position` (lines 47-69).  The manager's
`self.positions` dict is the association list `ps`; `now` models
`datetime.utcnow()`.  Returns the updated dict together with the closed
position, or raises (`.error`) when no open position exists for `symbol`. -/
def closePosition (ps : List (String × Position)) (symbol : String)
    (exitPrice : Rat) (now : Nat) :
    Except String (List (String × Position) × Position) :=
  match ps.lookup symbol with
  | none => .error ("No open position for " ++ symbol)
  | some p =>
    if p.status == "closed" then
      .error ("No open position for " ++ symbol)
    else
      let closed : Position :=
        { p with
          exitPrice := some exitPrice
          exitTime := some now
          status := "closed"
          pnl := if p.side == "long" then
                   (exitPrice - p.entryPrice) * p.amount
                 else
                   (p.entryPrice - exitPrice) * p.amount }
      .ok (ps.map fun kv => if kv.1 == symbol then (kv.1, closed) else kv,
           closed)

/-- A venue-reported position, the dict entries `sync_positions` reads
(`symbol`, `side`, `markPrice`, `contracts`). -/
structure ExchangePosition where
  symbol : String
  side : String
  markPrice : Rat
  contracts : Rat
deriving DecidableEq, Repr

/-- The `Position` that `sync_positions` reconstructs from venue data
(position_manager.py lines 86-92): entry price approximated by the venue
mark price, amount from `contracts`, freshly timestamped, status the
dataclass default `open`. -/
def recoveredPosition (now : Nat) (ep : ExchangePosition) : Position :=
  { symbol := ep.symbol
    side := if ep.side == "long" then "long" else "short"
    entryPrice := ep.markPrice
    amount := ep.contracts
    entryTime := now }

/-- One iteration of the `for ex_pos in exchange_positions` loop of
`PositionManager.sync_positions` (lines 80-93): when the venue symbol is
absent from the local dict and `contracts > 0`, log a warning and insert
the reconstructed open `Position`.  The accumulator also counts the
warnings emitted. -/
def syncStep (now : Nat) (acc : List (String × Position) × Nat)
    (ep : ExchangePosition) : List (String × Position) × Nat :=
  if (acc.1.lookup ep.symbol).isNone ∧ ep.contracts > 0 then
    (acc.1 ++ [(ep.symbol, recoveredPosition now ep)], acc.2 + 1)
  else
    acc

/-- `PositionManager.sync_positions` (lines 75-96).  `fetched` is the result
of `exchange.fetch_positions()`; the surrounding `try/except` turns a fetch
failure into a no-op (the error is only logged).  Returns the updated local
dict and the number of warnings emitted. -/
def syncPositions (now : Nat) (ps : List (String × Position))
    (fetched : Except Unit (List ExchangePosition)) :
    List (String × Position) × Nat :=
  match fetched with
  | .error _ => (ps, 0)
  | .ok exPositions => exPositions.foldl (syncStep now) (ps, 0)

/-! ### Risk manager  (src/strategy/risk_manager.py) -/

/-- `RiskLimits` dataclass (lines 5-11). -/
structure RiskLimits where
  maxPositionSize : Rat
  maxPositions : Nat
  maxDailyLoss : Rat
  maxDrawdown : Rat
  positionSizePct : Rat
deriving DecidableEq, Repr

/-- Python exceptions that the risk/executor paths can raise. -/
inductive PyErr where
  | nameErrorDatetime
  | indexError
  | runtime (msg : String)
deriving DecidableEq, Repr

/-- A record returned by `state_manager.get_all_positions()`; the code only
reads its `status` field. -/
structure StatePosition where
  status : String
deriving DecidableEq, Repr

/-- The environment `can_open_position` reads: the state manager's position
records, the configured limits, the free USDT balance
(`balance['free']['USDT']`) and the ticker's last price. -/
structure RiskEnv where
  positions : List StatePosition
  limits : RiskLimits
  freeUSDT : Rat
  tickerLast : Rat
deriving DecidableEq, Repr

/-- `RiskManager._calculate_daily_pnl` (lines 77-82).  The body evaluates
`datetime.utcnow()`, but `risk_manager.py` imports only `dataclasses`,
`typing` and the logger — the name `datetime` is unbound in the module, so
the call raises `NameError` before any trade is read. -/
def calculateDailyPnl : Except PyErr Rat :=
  .error .nameErrorDatetime

/-- `RiskManager._calculate_required_margin` (lines 84-89):
`ticker['last'] * amount / 10` (hard-coded 10x leverage). -/
def calculateRequiredMargin (env : RiskEnv) (amount : Rat) : Rat :=
  env.tickerLast * amount / 10

/-- `RiskManager.can_open_position` (lines 27-57): position-count check,
size check, daily-loss check (which evaluates `_calculate_daily_pnl`), then
margin check against 90% of the free USDT balance. -/
def canOpenPosition (env : RiskEnv) (amount : Rat) : Except PyErr Bool := do
  let openPositions := env.positions.filter fun p => p.status == "open"
  if env.limits.maxPositions ≤ openPositions.length then
    return false
  if env.limits.maxPositionSize < amount then
    return false
  let dailyPnl ← calculateDailyPnl
  if dailyPnl < -env.limits.maxDailyLoss then
    return false
  let requiredMargin := calculateRequiredMargin env amount
  if env.freeUSDT * (9/10) < requiredMargin then
    return false
  return true

/-! ### Order placement  (src/execution/order_manager.py, `place_order`,
lines 35-74)

`place_order` is decorated with `retry_async(max_attempts=3, delay=1)` —
note: without a `should_retry` predicate, so every exception is retried.
Each attempt builds a fresh `PENDING` order, calls
`exchange.create_order`, and on success stores the venue id, registers the
order, persists it and spawns exactly one monitor task.  On an exception it
sets the local order's status to `FAILED` and re-raises; the error carries
that failed order so the trace is visible. -/

/-- The venue response to `create_order`; the code reads `response['id']`. -/
structure CreateResp where
  id : String
deriving DecidableEq, Repr

/-- Outcome of one successful `place_order` attempt: the registered pending
order, with `monitorSpawned` recording the `asyncio.create_task` call. -/
structure Placed where
  order : Order
  monitorSpawned : Bool
deriving DecidableEq, Repr

/-- One attempt of the `place_order` body.  `mkOrder i` is the fresh order
built on attempt `i` (uuid4 id, `PENDING`); `venue i` is the venue's answer
to `create_order` on that attempt. -/
def placeAttempt (venue : Nat → Except String CreateResp)
    (mkOrder : Nat → Order) (i : Nat) : Except (String × Order) Placed :=
  match venue i with
  | .ok resp =>
    .ok { order := { mkOrder i with exchangeOrderId := some resp.id }
          monitorSpawned := true }
  | .error e => .error (e, { mkOrder i with status := .failed })

/-- `OrderManager.place_order`: the body above wrapped by
`retry_async(max_attempts=3, delay=1)`.  The second component counts the
venue attempts performed. -/
def placeOrder (venue : Nat → Except String CreateResp)
    (mkOrder : Nat → Order) :
    Except (String × Order) (Option Placed) × Nat :=
  retryRun none 3 (placeAttempt venue mkOrder)

/-! ### Order monitor  (src/execution/order_manager.py, `_monitor_order`,
lines 76-109) -/

/-- The venue snapshot `fetch_order` returns; the code reads `status`
(a string), `filled` and `average`. -/
structure VenueOrderSnapshot where
  status : String
  filled : Rat
  average : Rat
deriving DecidableEq, Repr

/-- The `while attempt < max_attempts and order.status == PENDING` loop.
`poll i` is the outcome of `fetch_order` on iteration `i` (an `.error`
models the `except` branch, which only logs).  A `closed` snapshot sets
`FILLED` and captures fill amount and average price, then breaks; a
`cancelled` snapshot sets `CANCELLED` and breaks; anything else falls
through to `sleep`/`attempt += 1`.  The guard `attempt < max_attempts` is
carried as the fuel `remaining = max_attempts - attempt`.  Returns the
order and the final value of `attempt`. -/
def monitorLoop (poll : Nat → Except Unit VenueOrderSnapshot) :
    (remaining : Nat) → Order → (attempt : Nat) → Order × Nat
  | 0, o, attempt => (o, attempt)
  | remaining + 1, o, attempt =>
    if o.status = .pending then
      match poll attempt with
      | .ok snap =>
        if snap.status == "closed" then
          ({ o with status := .filled, filledAmount := snap.filled,
                    averagePrice := snap.average }, attempt)
        else if snap.status == "cancelled" then
          ({ o with status := .cancelled }, attempt)
        else
          monitorLoop poll remaining o (attempt + 1)
      | .error _ => monitorLoop poll remaining o (attempt + 1)
    else
      (o, attempt)

/-- `_monitor_order` with its budget of `max_attempts = 10`: run the loop,
persist the order, and if the order is still `PENDING` with the budget
exhausted call `self.cancel_order(order.id)` — one venue cancellation
request, which sets `CANCELLED` when the venue call succeeds (`cancelOk`)
and leaves the order as-is when it raises.  The second component counts the
cancellation requests issued (0 or 1). -/
def monitorOrder (poll : Nat → Except Unit VenueOrderSnapshot)
    (cancelOk : Bool) (o : Order) : Order × Nat :=
  let r := monitorLoop poll 10 o 0
  if r.1.status = .pending ∧ 10 ≤ r.2 then
    ((if cancelOk then { r.1 with status := .cancelled } else r.1), 1)
  else
    (r.1, 0)

/-! ### Order status transitions  (order_manager.py + executor.py)

The operations that ever write `order.status` after placement:
a monitor-loop iteration, and `OrderManager.cancel_order` (lines 111-124),
which is invoked by the monitor, by `TradingExecutor._cancel_symbol_orders`,
and by `TradingExecutor.cancel_all_orders`.  `cancel_order` looks the order
up, calls `exchange.cancel_order`, and — whenever that call returns without
raising — sets `CANCELLED`, with no check of the current status. -/

/-- One status-mutating operation on a tracked order.
`monitorStep obs` is one iteration of the monitor loop observing `obs`
(`none` models a `fetch_order` exception); `cancel venueOk` is a
`cancel_order` call whose venue request succeeds iff `venueOk`. -/
inductive OrderOp where
  | monitorStep (obs : Option VenueOrderSnapshot)
  | cancel (venueOk : Bool)
deriving DecidableEq, Repr

/-- Effect of one operation on an order, read off from the source:
the monitor body runs only while the status is `PENDING` (loop condition);
`cancel_order` sets `CANCELLED` unconditionally when the venue call
succeeds. -/
def applyOp (o : Order) (op : OrderOp) : Order :=
  match op with
  | .monitorStep obs =>
    if o.status = .pending then
      match obs with
      | some snap =>
        if snap.status == "closed" then
          { o with status := .filled, filledAmount := snap.filled,
                   averagePrice := snap.average }
        else if snap.status == "cancelled" then
          { o with status := .cancelled }
        else o
      | none => o
    else o
  | .cancel venueOk =>
    if venueOk then { o with status := .cancelled } else o

/-- A sequence of operations applied to a tracked order. -/
def applyOps (o : Order) (ops : List OrderOp) : Order :=
  ops.foldl applyOp o

/-- Whether an operation is a `cancel_order` call whose venue request
succeeds (the only operation that writes a status without a `PENDING`
guard). -/
def isSuccessfulCancel : OrderOp → Bool
  | .cancel true => true
  | _ => false

/-! ### Signals  (src/strategy/base.py and src/strategy/signals.py) -/

/-- The `Signal` enum from `strategy/base.py`. -/
inductive SignalKind where
  | longEntry
  | longExit
  | shortEntry
  | shortExit
  | neutral
deriving DecidableEq, Repr

/-- Signal metadata: either whatever a source attached (opaque tag), or the
dict `_aggregate_signals` builds (`consensus`, `strategies_count`,
`original_signals`). -/
inductive SigMeta where
  | base (tag : Nat)
  | agg (consensus : Rat) (strategiesCount : Nat) (originals : List SigMeta)
deriving Repr

/-- The `TradingSignal` dataclass from `strategy/base.py`. -/
structure TradingSignal where
  kind : SignalKind
  symbol : String
  price : Rat
  confidence : Rat
  timestamp : Rat
  metadata : SigMeta
deriving Repr

/-- The grouping keys of `_aggregate_signals` (signals.py lines 178-183):
a Python dict keyed by `(signal.symbol, signal.signal)` iterates its keys in
first-insertion order. -/
def groupKeys (sigs : List TradingSignal) : List (String × SignalKind) :=
  sigs.foldl
    (fun acc s =>
      if (s.symbol, s.kind) ∈ acc then acc else acc ++ [(s.symbol, s.kind)])
    []

/-- The members of one `(symbol, kind)` group, in input order. -/
def groupOf (sigs : List TradingSignal) (key : String × SignalKind) :
    List TradingSignal :=
  sigs.filter fun s => s.symbol == key.1 && decide (s.kind = key.2)

/-- The consensus check and aggregated-signal construction for one group
(signals.py lines 187-207): the group is emitted iff
`len(group) / len(strategies) ≥ min_consensus`, with confidence
`mean(confidences) * consensus`, price `mean(prices)`, timestamp `now`, and
the bookkeeping metadata. -/
def emitForKey (minConsensus : Rat) (n : Nat) (now : Rat)
    (sigs : List TradingSignal) (key : String × SignalKind) :
    Option TradingSignal :=
  let group := groupOf sigs key
  let consensus : Rat := (group.length : Rat) / (n : Rat)
  if minConsensus ≤ consensus then
    some { kind := key.2
           symbol := key.1
           price := (group.map (·.price)).sum / (group.length : Rat)
           confidence :=
             (group.map (·.confidence)).sum / (group.length : Rat)
               * consensus
           timestamp := now
           metadata := .agg consensus group.length
             (group.map (·.metadata)) }
  else
    none

/-- `SignalAggregator._aggregate_signals` (signals.py lines 172-209) with
`n` registered strategies: pass-through when `n = 1`, otherwise group by
`(symbol, kind)` and emit the groups that reach consensus. -/
def aggregateSignals (minConsensus : Rat) (n : Nat) (now : Rat)
    (sigs : List TradingSignal) : List TradingSignal :=
  if n = 1 then sigs
  else (groupKeys sigs).filterMap (emitForKey minConsensus n now sigs)

/-! ### Trading executor  (src/execution/executor.py) -/

/-- One price level of an order book (`order_book.bids[i].price`). -/
structure BookLevel where
  price : Rat
  amount : Rat
deriving DecidableEq, Repr

/-- An order-book snapshot held by `OrderBookManager`. -/
structure OrderBook where
  bids : List BookLevel
  asks : List BookLevel
deriving DecidableEq, Repr

/-- An order-placement request handed to `order_manager.place_order` by
`close_all_positions`. -/
structure PlacedReq where
  symbol : String
  side : String
  orderType : String
  amount : Rat
  price : Option Rat
deriving DecidableEq, Repr

/-- The `TradingExecutor` state the shutdown-path claims touch: the
order-book streaming flag, the tracked orders, the position manager's
positions, the book snapshots and the log of placement requests issued. -/
structure ExecutorState where
  streaming : Bool
  activeOrders : List Order
  positions : List Position
  books : List (String × OrderBook)
  placed : List PlacedReq
deriving Repr

/-- `TradingExecutor.cancel_all_orders` (lines 233-236): call
`order_manager.cancel_order` on every tracked order id — every tracked
order, terminal or not; each call sets `CANCELLED` exactly when the venue
request returns without raising (`venueOk`). -/
def cancelAllOrders (venueOk : String → Bool) (orders : List Order) :
    List Order :=
  orders.map fun o =>
    if venueOk o.id then { o with status := .cancelled } else o

/-- `TradingExecutor.shutdown` (lines 41-49): stop order-book streaming,
cancel all tracked orders, log.  Nothing else: positions are untouched and
no order is placed. -/
def shutdown (venueOk : String → Bool) (s : ExecutorState) : ExecutorState :=
  { s with streaming := false
           activeOrders := cancelAllOrders venueOk s.activeOrders }

/-- The closing order `close_all_positions` (lines 238-260) builds for one
open position: with no book snapshot, a market order with no price; with a
snapshot, a limit order at `bids[0].price` for a long and `asks[0].price`
for a short — raising `IndexError` when that side of the book is empty. -/
def closingRequest (books : List (String × OrderBook)) (p : Position) :
    Except PyErr PlacedReq :=
  match books.lookup p.symbol with
  | none =>
    .ok { symbol := p.symbol
          side := if p.side == "long" then "sell" else "buy"
          orderType := "market"
          amount := p.amount
          price := none }
  | some ob =>
    match (if p.side == "long" then ob.bids else ob.asks).head? with
    | none => .error .indexError
    | some lvl =>
      .ok { symbol := p.symbol
            side := if p.side == "long" then "sell" else "buy"
            orderType := "limit"
            amount := p.amount
            price := some lvl.price }

/-- `TradingExecutor.close_all_positions`: for each open position, build and
issue the closing request.  Order placement is abstracted to appending the
request to the log (`place_order`'s own failure modes are settled
separately); a raised `IndexError` propagates. -/
def closeAllPositions (s : ExecutorState) : Except PyErr ExecutorState := do
  let opens := s.positions.filter fun p => p.status == "open"
  let reqs ← opens.mapM (closingRequest s.books)
  return { s with placed := s.placed ++ reqs }

/-- `TradingExecutor.execute_signal` (lines 51-79), body inside the `try`:
reject when `signal.confidence < config.min_confidence`; route entry/exit
kinds to their handlers (`handle`, which may raise); `NEUTRAL` or any other
kind only logs a warning and yields `None`. -/
def executeSignalBody (minConfidence : Rat)
    (handle : SignalKind → Except PyErr (Option Order))
    (s : TradingSignal) : Except PyErr (Option Order) :=
  if s.confidence < minConfidence then
    .ok none
  else
    match s.kind with
    | .longEntry => handle .longEntry
    | .longExit => handle .longExit
    | .shortEntry => handle .shortEntry
    | .shortExit => handle .shortExit
    | .neutral => .ok none

/-- `TradingExecutor.execute_signal` with its surrounding
`try/except Exception`: any exception from the body is logged and turned
into `None`. -/
def executeSignal (minConfidence : Rat)
    (handle : SignalKind → Except PyErr (Option Order))
    (s : TradingSignal) : Except PyErr (Option Order) :=
  match executeSignalBody minConfidence handle s with
  | .ok r => .ok r
  | .error _ => .ok none

end BinanceARDL

deriving instance DecidableEq for Except

namespace BinanceARDL

/-! ## Theorems -/

/-- The record `close_position` writes back for position `p` at exit price
`x` and time `now`. -/
def closedRecord (p : Position) (x : Rat) (now : Nat) : Position :=
  { p with
    exitPrice := some x
    exitTime := some now
    status := "closed"
    pnl := if p.side == "long" then (x - p.entryPrice) * p.amount
           else (p.entryPrice - x) * p.amount }

lemma lookup_map_update (ps : List (String × Position)) (sym : String)
    (q : Position) (h : (ps.lookup sym).isSome) :
    (ps.map fun kv => if kv.1 == sym then (kv.1, q) else kv).lookup sym
      = some q := by
  induction ps with
  | nil => simp [List.lookup] at h
  | cons kv t ih =>
    obtain ⟨k, v⟩ := kv
    by_cases hk : k = sym
    · subst hk
      simp
    · have hcond : ¬((k == sym) = true) := by simp [beq_false_of_ne hk]
      have h' : (List.lookup sym t).isSome := by
        simpa [List.lookup, beq_false_of_ne (Ne.symm hk)] using h
      simp only [List.map_cons]
      rw [if_neg hcond]
      simpa [List.lookup, beq_false_of_ne (Ne.symm hk)] using ih h'

/-- Sample open long position for the concrete C5 checks. -/
def longSample : Position :=
  { symbol := "L", side := "long", entryPrice := 100, amount := 2,
    entryTime := 0 }

/-- Sample open short position for the concrete C5 checks. -/
def shortSample : Position :=
  { symbol := "S", side := "short", entryPrice := 100, amount := 2,
    entryTime := 0 }

/-- C5: `close_position(symbol, exit_price)` raises when no open position
exists for the symbol (absent, or present but already closed); otherwise it
marks the position closed, records the exit price, and sets
pnl = (exit − entry) × amount for a long and (entry − exit) × amount for a
short; concretely, a long with entry 100, amount 2, exit 110 yields
pnl 20, and a short with entry 100, amount 2, exit 90 yields pnl 20. -/
theorem closePosition_pnl :
    (∀ (ps : List (String × Position)) (sym : String) (x : Rat) (now : Nat),
       ps.lookup sym = none →
       closePosition ps sym x now = .error ("No open position for " ++ sym)) ∧
    (∀ (ps : List (String × Position)) (sym : String) (x : Rat) (now : Nat)
       (p : Position), ps.lookup sym = some p → p.status = "closed" →
       closePosition ps sym x now = .error ("No open position for " ++ sym)) ∧
    (∀ (ps : List (String × Position)) (sym : String) (x : Rat) (now : Nat)
       (p : Position), ps.lookup sym = some p → p.status ≠ "closed" →
       ∃ r, closePosition ps sym x now = .ok r ∧
         r.2 = closedRecord p x now ∧
         r.2.status = "closed" ∧
         r.2.exitPrice = some x ∧
         r.2.pnl = (if p.side == "long" then (x - p.entryPrice) * p.amount
                    else (p.entryPrice - x) * p.amount) ∧
         r.1.lookup sym = some r.2) ∧
    (closePosition [("L", longSample)] "L" 110 7
       = .ok ([("L", closedRecord longSample 110 7)],
              closedRecord longSample 110 7) ∧
     (closedRecord longSample 110 7).pnl = 20 ∧
     (closedRecord longSample 110 7).status = "closed") ∧
    (closePosition [("S", shortSample)] "S" 90 7
       = .ok ([("S", closedRecord shortSample 90 7)],
              closedRecord shortSample 90 7) ∧
     (closedRecord shortSample 90 7).pnl = 20 ∧
     (closedRecord shortSample 90 7).status = "closed") := by
  refine ⟨?_, ?_, ?_, ⟨?_, ?_, rfl⟩, ⟨?_, ?_, rfl⟩⟩
  · intro ps sym x now h
    simp [closePosition, h]
  · intro ps sym x now p h hclosed
    simp [closePosition, h, hclosed]
  · intro ps sym x now p h hopen
    have hbeq : (p.status == "closed") = false := beq_false_of_ne hopen
    refine ⟨(ps.map fun kv =>
        if kv.1 == sym then (kv.1, closedRecord p x now) else kv,
        closedRecord p x now), ?_, rfl, rfl, rfl, rfl, ?_⟩
    · simp [closePosition, h, hbeq, closedRecord]
    · exact lookup_map_update ps sym _ (by simp [h])
  · simp +decide [closePosition, List.lookup, longSample, closedRecord]
  · show (if ("long" == "long" : Bool) then ((110 : Rat) - 100) * 2
          else ((100 : Rat) - 110) * 2) = 20
    norm_num
  · simp +decide [closePosition, List.lookup, shortSample, closedRecord]
  · show (if ("short" == "long" : Bool) then ((90 : Rat) - 100) * 2
          else ((100 : Rat) - 90) * 2) = 20
    norm_num +decide

/-- C5 witness: the error case and the long concrete case at explicit
inputs. -/
theorem closePosition_pnl_witness :
    closePosition ([] : List (String × Position)) "BTC/USDT" 10 0
        = .error ("No open position for " ++ "BTC/USDT") :=
  closePosition_pnl.1 [] "BTC/USDT" 10 0 rfl

/-- C7: for a coroutine wrapped by `retry_async` with `max_attempts = 3`
(per-attempt outcomes `f`), failing on attempts 0 and 1 and succeeding on
attempt 2 returns the third attempt's value after exactly 3 calls, and
failing on all three attempts raises the last error after exactly 3 calls —
never a 4th. -/
theorem retryAsync_three_attempts {E A : Type} (f g : Nat → Except E A)
    (a : A) (e0 e1 e2 e3 e4 : E)
    (hf0 : f 0 = .error e0) (hf1 : f 1 = .error e1) (hf2 : f 2 = .ok a)
    (hg0 : g 0 = .error e2) (hg1 : g 1 = .error e3)
    (hg2 : g 2 = .error e4) :
    retryRun none 3 f = (.ok (some a), 3) ∧
    retryRun none 3 g = (.error e4, 3) := by
  constructor
  · simp [retryRun, retryGo, hf0, hf1, hf2]
  · simp [retryRun, retryGo, hg0, hg1, hg2]

/-- C7 witness: a concrete coroutine failing twice then succeeding, and one
failing three times. -/
theorem retryAsync_three_attempts_witness :
    retryRun none 3
        (fun i => if i = 2 then .ok 42 else .error "boom") = (.ok (some 42), 3) ∧
    retryRun none 3
        (fun _ => (.error "boom" : Except String Nat)) = (.error "boom", 3) :=
  retryAsync_three_attempts
    (fun i => if i = 2 then .ok 42 else .error "boom")
    (fun _ => .error "boom") 42 "boom" "boom" "boom" "boom" "boom"
    rfl rfl rfl rfl rfl rfl

/-- C1: whenever the open-position count is below `max_positions` and the
requested amount is within `max_position_size`, `can_open_position` does
not return a boolean at all: it raises `NameError`, because the daily-loss
check calls `datetime.utcnow()` and `risk_manager.py` never imports
`datetime`.  The claimed margin check and `return True` are unreachable. -/
theorem canOpenPosition_raises_nameError (env : RiskEnv) (amount : Rat)
    (hcount : (env.positions.filter fun p => p.status == "open").length
      < env.limits.maxPositions)
    (hsize : amount ≤ env.limits.maxPositionSize) :
    canOpenPosition env amount = .error .nameErrorDatetime := by
  simp only [canOpenPosition, calculateDailyPnl]
  rw [if_neg (by omega), if_neg (by simp [not_lt, hsize])]
  rfl

/-- C1 witness: a concrete environment meeting all of the claim's
hypotheses (no open positions, limit 3; amount 1 ≤ max size 1; ample
balance) on which `can_open_position` raises. -/
theorem canOpenPosition_raises_nameError_witness :
    canOpenPosition
      { positions := []
        limits := { maxPositionSize := 1, maxPositions := 3,
                    maxDailyLoss := 100, maxDrawdown := 1,
                    positionSizePct := 1/10 }
        freeUSDT := 10000, tickerLast := 2500 } 1
      = .error .nameErrorDatetime :=
  canOpenPosition_raises_nameError _ 1 (by decide) (by norm_num)

/-- C10: `execute_signal` never propagates an exception: it always returns
(`.ok`), yielding `None` when the confidence is below the configured
minimum, when the kind is Neutral, or when the routed handler raises; in
the remaining cases it returns the handler's optional order. -/
theorem executeSignal_never_raises (minConfidence : Rat)
    (handle : SignalKind → Except PyErr (Option Order))
    (s : TradingSignal) :
    (∃ r, executeSignal minConfidence handle s = .ok r) ∧
    (s.confidence < minConfidence →
       executeSignal minConfidence handle s = .ok none) ∧
    (s.kind = .neutral → executeSignal minConfidence handle s = .ok none) ∧
    (∀ e, handle s.kind = .error e →
       executeSignal minConfidence handle s = .ok none) ∧
    (∀ r, ¬ s.confidence < minConfidence → s.kind ≠ .neutral →
       handle s.kind = .ok r →
       executeSignal minConfidence handle s = .ok r) := by
  by_cases hc : s.confidence < minConfidence
  · exact ⟨⟨none, by simp [executeSignal, executeSignalBody, hc]⟩,
      fun _ => by simp [executeSignal, executeSignalBody, hc],
      fun _ => by simp [executeSignal, executeSignalBody, hc],
      fun e _ => by simp [executeSignal, executeSignalBody, hc],
      fun r hc' _ _ => absurd hc hc'⟩
  · refine ⟨?_, fun h => absurd h hc, ?_, ?_, ?_⟩
    · cases hk : s.kind with
      | neutral =>
        exact ⟨none, by simp [executeSignal, executeSignalBody, hc, hk]⟩
      | longEntry =>
        cases hh : handle SignalKind.longEntry with
        | ok r =>
          exact ⟨r, by simp [executeSignal, executeSignalBody, hc, hk, hh]⟩
        | error e =>
          exact ⟨none, by simp [executeSignal, executeSignalBody, hc, hk, hh]⟩
      | longExit =>
        cases hh : handle SignalKind.longExit with
        | ok r =>
          exact ⟨r, by simp [executeSignal, executeSignalBody, hc, hk, hh]⟩
        | error e =>
          exact ⟨none, by simp [executeSignal, executeSignalBody, hc, hk, hh]⟩
      | shortEntry =>
        cases hh : handle SignalKind.shortEntry with
        | ok r =>
          exact ⟨r, by simp [executeSignal, executeSignalBody, hc, hk, hh]⟩
        | error e =>
          exact ⟨none, by simp [executeSignal, executeSignalBody, hc, hk, hh]⟩
      | shortExit =>
        cases hh : handle SignalKind.shortExit with
        | ok r =>
          exact ⟨r, by simp [executeSignal, executeSignalBody, hc, hk, hh]⟩
        | error e =>
          exact ⟨none, by simp [executeSignal, executeSignalBody, hc, hk, hh]⟩
    · intro hk
      simp [executeSignal, executeSignalBody, hc, hk]
    · intro e hh
      cases hk : s.kind <;>
        (rw [hk] at hh
         simp [executeSignal, executeSignalBody, hc, hk, hh])
    · intro r hc' hk hh
      cases hkk : s.kind <;>
        first
          | exact absurd hkk hk
          | (rw [hkk] at hh
             simp [executeSignal, executeSignalBody, hc, hkk, hh])

/-- C10 witness: a handler that raises, at a high-confidence LongEntry
signal, still yields a returned `None`. -/
theorem executeSignal_never_raises_witness :
    executeSignal (1/2) (fun _ => .error (.runtime "boom"))
      { kind := .longEntry, symbol := "X", price := 1, confidence := 1,
        timestamp := 0, metadata := .base 0 } = .ok none :=
  (executeSignal_never_raises (1/2) (fun _ => .error (.runtime "boom"))
      { kind := .longEntry, symbol := "X", price := 1, confidence := 1,
        timestamp := 0, metadata := .base 0 }).2.2.2.1
    (.runtime "boom") rfl

/-- A venue that rejects every `create_order` attempt with a non-retryable
error. -/
def rejectingVenue : Nat → Except String CreateResp :=
  fun _ => .error "Insufficient balance"

/-- The fresh local order `place_order` builds on each attempt. -/
def freshOrder : Nat → Order := fun _ =>
  { id := "local-1", symbol := "ETH/USDT", side := "buy",
    orderType := "limit", amount := 1, price := some 2500,
    status := .pending }

/-- C2 counterexample: with a venue that rejects every attempt with
"Insufficient balance" (non-retryable per the spec's taxonomy),
`place_order` does not return a `FAILED` order — it raises (the `.error`
carries the locally built order, marked `FAILED`, and the venue message) —
and the full retry budget of 3 attempts is consumed on the way, because the
`retry_async(max_attempts=3, delay=1)` decorating `place_order` is
configured without a `should_retry` classifier. -/
theorem placeOrder_rejection_raises :
    placeOrder rejectingVenue freshOrder
      = (.error ("Insufficient balance",
          { id := "local-1", symbol := "ETH/USDT", side := "buy",
            orderType := "limit", amount := 1, price := some 2500,
            status := .failed }), 3) := by
  decide

/-- C2 amended: on persistent venue rejection `place_order` marks the local
order `FAILED` and re-raises; the wrapper retries even non-retryable
rejections, consuming all 3 attempts before the last error propagates, and
no monitor is spawned (no attempt returns).  The
`RetryStrategies.order_retry` classifier — which does abort on the first
"insufficient"/"invalid"/"rejected" error without further attempts — exists
in `retry.py` but is not applied to `place_order`. -/
theorem placeOrder_rejection_retries
    (venue : Nat → Except String CreateResp) (mkOrder : Nat → Order)
    (e0 e1 e2 : String) (h0 : venue 0 = .error e0)
    (h1 : venue 1 = .error e1) (h2 : venue 2 = .error e2) :
    placeOrder venue mkOrder
        = (.error (e2, { mkOrder 2 with status := .failed }), 3) ∧
    (∀ {A : Type} (f : Nat → Except String A) (e : String),
       f 0 = .error e → shouldRetryOrder e = false →
       retryRun (some shouldRetryOrder) 3 f = (.error e, 1)) := by
  constructor
  · simp [placeOrder, retryRun, retryGo, placeAttempt, h0, h1, h2]
  · intro A f e hf hcls
    simp [retryRun, retryGo, hf, hcls]

/-- C2 amended witness: the rejecting venue consumes 3 attempts, while the
(unused) order-retry classifier stops after 1. -/
theorem placeOrder_rejection_retries_witness :
    placeOrder rejectingVenue freshOrder
        = (.error ("Insufficient balance",
            { freshOrder 2 with status := .failed }), 3) ∧
    retryRun (some shouldRetryOrder) 3
        (fun _ => (.error "Insufficient balance" : Except String Nat))
      = (.error "Insufficient balance", 1) := by
  have h := placeOrder_rejection_retries rejectingVenue freshOrder
    "Insufficient balance" "Insufficient balance" "Insufficient balance"
    rfl rfl rfl
  exact ⟨h.1, h.2 (fun _ => .error "Insufficient balance")
    "Insufficient balance" rfl (by decide)⟩

lemma monitorLoop_pending_attempts (poll : Nat → Except Unit VenueOrderSnapshot)
    (fuel : Nat) :
    ∀ (o : Order) (attempt : Nat),
      (monitorLoop poll fuel o attempt).1.status = .pending →
      (monitorLoop poll fuel o attempt).2 = attempt + fuel := by
  induction fuel with
  | zero => intro o attempt _h; simp [monitorLoop]
  | succ n ih =>
    intro o attempt h
    simp only [monitorLoop] at h ⊢
    by_cases hp : o.status = .pending
    · simp only [hp, if_true] at h ⊢
      cases hpoll : poll attempt with
      | ok snap =>
        simp only [hpoll] at h ⊢
        cases hcb : (snap.status == "closed") with
        | true =>
          simp only [hcb, if_true] at h
          simp at h
        | false =>
          cases hcc : (snap.status == "cancelled") with
          | true =>
            simp only [hcb, hcc, Bool.false_eq_true, if_false, if_true] at h
            simp at h
          | false =>
            simp only [hcb, hcc, Bool.false_eq_true, if_false] at h ⊢
            rw [ih o (attempt + 1) h]
            omega
      | error e =>
        simp only [hpoll] at h ⊢
        rw [ih o (attempt + 1) h]
        omega
    · simp only [hp, if_false] at h

/-- C8: for a monitored order that starts `PENDING`, if the 10-attempt poll
budget is exhausted with the order still `PENDING`, the monitor issues
exactly one cancellation request; if the loop ends with the order `FILLED`
or `CANCELLED`, it issues none. -/
theorem monitorOrder_cancel_policy
    (poll : Nat → Except Unit VenueOrderSnapshot) (cancelOk : Bool)
    (o : Order) :
    ((monitorLoop poll 10 o 0).1.status = .pending →
       (monitorOrder poll cancelOk o).2 = 1) ∧
    ((monitorLoop poll 10 o 0).1.status = .filled ∨
       (monitorLoop poll 10 o 0).1.status = .cancelled →
       (monitorOrder poll cancelOk o).2 = 0) := by
  constructor
  · intro h
    have ha := monitorLoop_pending_attempts poll 10 o 0 h
    simp [monitorOrder, h, ha]
  · intro h
    have hng : ¬ ((monitorLoop poll 10 o 0).1.status = .pending ∧
        10 ≤ (monitorLoop poll 10 o 0).2) := by
      rcases h with h | h <;> simp [h]
    simp [monitorOrder, hng]

/-- The pending order used in the concrete monitor runs. -/
def monitoredOrder : Order :=
  { id := "local-2", symbol := "ETH/USDT", side := "buy",
    orderType := "limit", amount := 1, price := some 2500,
    status := .pending, exchangeOrderId := some "ex-2" }

/-- C8 witness: a venue that always reports `open` leads to exactly one
cancellation request; one that reports `closed` at once leads to none. -/
theorem monitorOrder_cancel_policy_witness :
    (monitorOrder (fun _ => .ok ⟨"open", 0, 0⟩) true monitoredOrder).2 = 1 ∧
    (monitorOrder (fun _ => .ok ⟨"closed", 1, 2500⟩) true
        monitoredOrder).2 = 0 :=
  ⟨(monitorOrder_cancel_policy (fun _ => .ok ⟨"open", 0, 0⟩) true
      monitoredOrder).1 (by decide),
   (monitorOrder_cancel_policy (fun _ => .ok ⟨"closed", 1, 2500⟩) true
      monitoredOrder).2 (Or.inl (by decide))⟩

/-- A tracked order that has already been filled. -/
def filledOrder : Order :=
  { id := "local-3", symbol := "ETH/USDT", side := "buy",
    orderType := "limit", amount := 1, price := some 2500,
    status := .filled, exchangeOrderId := some "ex-3", filledAmount := 1,
    averagePrice := 2500 }

/-- C3 counterexample: a `FILLED` order is not immune to further
transitions: one `cancel_order` call whose venue request succeeds (as the
mock venue's does even for closed orders) moves it to `CANCELLED` —
`cancel_order` (order_manager.py lines 111-124) sets `CANCELLED` without
checking the current status. -/
theorem orderStatus_filled_reversal :
    filledOrder.status = .filled ∧
    (applyOps filledOrder [.cancel true]).status = .cancelled ∧
    OrderStatus.cancelled ≠ OrderStatus.filled := by
  decide

/-- C3 amended: a `CANCELLED` order never changes status again under any
operation sequence; a `FILLED` order never changes status under monitor
steps and failed cancellations — the only reversal is `cancel_order` with a
succeeding venue request, which moves `FILLED` to `CANCELLED`. -/
theorem orderStatus_terminal_amended (o : Order) (ops : List OrderOp) :
    (o.status = .cancelled → (applyOps o ops).status = .cancelled) ∧
    (o.status = .filled → (∀ op ∈ ops, isSuccessfulCancel op = false) →
       (applyOps o ops).status = .filled) := by
  induction ops generalizing o with
  | nil => exact ⟨fun h => h, fun h _ => h⟩
  | cons op t ih =>
    have ih' := ih (applyOp o op)
    simp only [applyOps, List.foldl_cons] at ih' ⊢
    constructor
    · intro h
      refine ih'.1 ?_
      cases op with
      | monitorStep obs => simp [applyOp, h]
      | cancel b => cases b <;> simp [applyOp, h]
    · intro h hops
      have hop : isSuccessfulCancel op = false :=
        hops op (List.mem_cons_self op t)
      refine ih'.2 ?_ fun op' h' => hops op' (List.mem_cons_of_mem _ h')
      cases op with
      | monitorStep obs => simp [applyOp, h]
      | cancel b =>
        cases b with
        | true => simp [isSuccessfulCancel] at hop
        | false => simp [applyOp, h]

/-- C3 amended witness: a filled order survives a monitor step and a failed
cancellation untouched. -/
theorem orderStatus_terminal_amended_witness :
    (applyOps filledOrder [.monitorStep none, .cancel false]).status
      = .filled :=
  (orderStatus_terminal_amended filledOrder
    [.monitorStep none, .cancel false]).2 rfl (by decide)

lemma lookup_append_left (ps l : List (String × Position)) (s : String)
    (h : (ps.lookup s).isSome) : (ps ++ l).lookup s = ps.lookup s := by
  induction ps with
  | nil => simp [List.lookup] at h
  | cons kv t ih =>
    obtain ⟨k, v⟩ := kv
    by_cases hk : s = k
    · subst hk
      simp [List.lookup]
    · have hb : (s == k) = false := beq_false_of_ne hk
      simp only [List.lookup, hb] at h
      simp only [List.cons_append, List.lookup, hb]
      exact ih h

lemma lookup_append_right (ps l : List (String × Position)) (s : String)
    (h : ps.lookup s = none) : (ps ++ l).lookup s = l.lookup s := by
  induction ps with
  | nil => simp
  | cons kv t ih =>
    obtain ⟨k, v⟩ := kv
    by_cases hk : s = k
    · subst hk
      simp [List.lookup] at h
    · have hb : (s == k) = false := beq_false_of_ne hk
      simp only [List.lookup, hb] at h
      simp only [List.cons_append, List.lookup, hb]
      exact ih h

lemma lookup_recovered_map (now : Nat) (l : List ExchangePosition)
    (ep : ExchangePosition) (hmem : ep ∈ l)
    (hnd : (l.map (·.symbol)).Nodup) :
    (l.map fun e => (e.symbol, recoveredPosition now e)).lookup ep.symbol
      = some (recoveredPosition now ep) := by
  induction l with
  | nil => simp at hmem
  | cons e t ih =>
    simp only [List.map_cons, List.nodup_cons, List.mem_map] at hnd
    rcases List.mem_cons.mp hmem with h | h
    · subst h
      simp [List.lookup]
    · have hne : ep.symbol ≠ e.symbol := by
        intro hs
        exact hnd.1 ⟨ep, h, hs⟩
      simp only [List.map_cons, List.lookup, beq_false_of_ne hne]
      exact ih h hnd.2

lemma syncFold_characterization (now : Nat) :
    ∀ (exPositions : List ExchangePosition)
      (ps : List (String × Position)) (w : Nat),
      (exPositions.map (·.symbol)).Nodup →
      exPositions.foldl (syncStep now) (ps, w)
        = (ps ++ (exPositions.filter fun ep =>
              (ps.lookup ep.symbol).isNone && decide (0 < ep.contracts)).map
                (fun ep => (ep.symbol, recoveredPosition now ep)),
           w + (exPositions.filter fun ep =>
              (ps.lookup ep.symbol).isNone
                && decide (0 < ep.contracts)).length) := by
  intro exPositions
  induction exPositions with
  | nil => intro ps w _; simp
  | cons ep t ih =>
    intro ps w hnd
    simp only [List.map_cons, List.nodup_cons, List.mem_map] at hnd
    have hlookup_pres : ∀ e ∈ t,
        ((ps ++ [(ep.symbol, recoveredPosition now ep)]).lookup e.symbol)
          = ps.lookup e.symbol := by
      intro e he
      by_cases hs : (ps.lookup e.symbol).isSome
      · exact lookup_append_left ps _ e.symbol hs
      · have hnone : ps.lookup e.symbol = none :=
          Option.not_isSome_iff_eq_none.mp hs
        rw [lookup_append_right ps _ e.symbol hnone, hnone]
        have hne : e.symbol ≠ ep.symbol := by
          intro h
          exact hnd.1 ⟨e, he, h⟩
        simp [List.lookup, beq_false_of_ne hne]
    by_cases hc : (ps.lookup ep.symbol).isNone ∧ ep.contracts > 0
    · have hstep : syncStep now (ps, w) ep
          = (ps ++ [(ep.symbol, recoveredPosition now ep)], w + 1) := by
        simp [syncStep, hc]
      have hfilter : t.filter (fun e =>
            ((ps ++ [(ep.symbol, recoveredPosition now ep)]).lookup
              e.symbol).isNone && decide (0 < e.contracts))
          = t.filter (fun e =>
            (ps.lookup e.symbol).isNone && decide (0 < e.contracts)) := by
        apply List.filter_congr
        intro e he
        rw [hlookup_pres e he]
      have hcb : ((ps.lookup ep.symbol).isNone
          && decide (0 < ep.contracts)) = true := by
        simp [hc.1, hc.2]
      rw [List.foldl_cons, hstep,
        ih (ps ++ [(ep.symbol, recoveredPosition now ep)]) (w + 1) hnd.2,
        hfilter]
      simp only [List.filter_cons, hcb, if_true, List.map_cons,
        List.length_cons, Prod.mk.injEq]
      constructor
      · simp
      · omega
    · have hstep : syncStep now (ps, w) ep = (ps, w) := if_neg hc
      have hcb : ((ps.lookup ep.symbol).isNone
          && decide (0 < ep.contracts)) = false := by
        cases hb : (ps.lookup ep.symbol).isNone with
        | false => simp
        | true =>
          have h2 : ¬ (0 < ep.contracts) := fun h2 => hc ⟨hb, h2⟩
          simp [h2]
      rw [List.foldl_cons, hstep, ih ps w hnd.2]
      simp only [List.filter_cons, hcb, Bool.false_eq_true, if_false]


/-- C9: with venue-reported symbols pairwise distinct, `sync_positions`
appends exactly one reconstructed open `Position` — entry price the venue
mark price — and emits exactly one warning, for each venue-open position
(`contracts > 0`) whose symbol is absent from the local map; every
pre-existing local entry is looked up unchanged (none is modified or
removed), and the warning count equals the number of reconstructions. -/
theorem syncPositions_reconstruction (now : Nat)
    (ps : List (String × Position)) (exPositions : List ExchangePosition)
    (hnd : (exPositions.map (·.symbol)).Nodup) :
    syncPositions now ps (.ok exPositions)
      = (ps ++ (exPositions.filter fun ep =>
            (ps.lookup ep.symbol).isNone && decide (0 < ep.contracts)).map
              (fun ep => (ep.symbol, recoveredPosition now ep)),
         (exPositions.filter fun ep =>
            (ps.lookup ep.symbol).isNone
              && decide (0 < ep.contracts)).length) ∧
    (∀ sym, (ps.lookup sym).isSome →
       (syncPositions now ps (.ok exPositions)).1.lookup sym
         = ps.lookup sym) ∧
    (∀ ep ∈ exPositions, ps.lookup ep.symbol = none → 0 < ep.contracts →
       (syncPositions now ps (.ok exPositions)).1.lookup ep.symbol
         = some (recoveredPosition now ep)) ∧
    (∀ ep, (recoveredPosition now ep).status = "open" ∧
       (recoveredPosition now ep).entryPrice = ep.markPrice ∧
       (recoveredPosition now ep).amount = ep.contracts) := by
  have hchar : syncPositions now ps (.ok exPositions)
      = (ps ++ (exPositions.filter fun ep =>
          (ps.lookup ep.symbol).isNone && decide (0 < ep.contracts)).map
            (fun ep => (ep.symbol, recoveredPosition now ep)),
        0 + (exPositions.filter fun ep =>
          (ps.lookup ep.symbol).isNone
            && decide (0 < ep.contracts)).length) := by
    simp only [syncPositions]
    exact syncFold_characterization now exPositions ps 0 hnd
  refine ⟨by rw [hchar]; simp, ?_, ?_, fun ep => ⟨rfl, rfl, rfl⟩⟩
  · intro sym hs
    rw [hchar]
    exact lookup_append_left ps _ sym hs
  · intro ep hmem hnone hpos
    rw [hchar]
    have hcb : ((ps.lookup ep.symbol).isNone
        && decide (0 < ep.contracts)) = true := by
      simp [hnone, hpos]
    have hmemf : ep ∈ exPositions.filter fun e =>
        (ps.lookup e.symbol).isNone && decide (0 < e.contracts) :=
      List.mem_filter.mpr ⟨hmem, hcb⟩
    have hndf : ((exPositions.filter fun e =>
        (ps.lookup e.symbol).isNone
          && decide (0 < e.contracts)).map (·.symbol)).Nodup := by
      refine List.Nodup.sublist ?_ hnd
      exact List.Sublist.map _ (List.filter_sublist exPositions)
    calc (ps ++ (exPositions.filter fun e =>
          (ps.lookup e.symbol).isNone && decide (0 < e.contracts)).map
            (fun e => (e.symbol, recoveredPosition now e)), _).1.lookup
          ep.symbol
        = ((exPositions.filter fun e =>
            (ps.lookup e.symbol).isNone && decide (0 < e.contracts)).map
              (fun e => (e.symbol, recoveredPosition now e))).lookup
            ep.symbol := lookup_append_right ps _ ep.symbol hnone
      _ = some (recoveredPosition now ep) :=
          lookup_recovered_map now _ ep hmemf hndf

/-- C9 witness: one venue position absent locally and one already tracked:
exactly one reconstruction with the mark price as entry, one warning, and
the tracked entry untouched. -/
theorem syncPositions_reconstruction_witness :
    (syncPositions 5 [("ETH/USDT", longSample)]
        (.ok [{ symbol := "ETH/USDT", side := "long", markPrice := 2500,
                contracts := 1 },
              { symbol := "BTC/USDT", side := "short", markPrice := 60000,
                contracts := 2 }])).1.lookup "BTC/USDT"
      = some (recoveredPosition 5
          { symbol := "BTC/USDT", side := "short", markPrice := 60000,
            contracts := 2 }) :=
  (syncPositions_reconstruction 5 [("ETH/USDT", longSample)]
      [{ symbol := "ETH/USDT", side := "long", markPrice := 2500,
         contracts := 1 },
       { symbol := "BTC/USDT", side := "short", markPrice := 60000,
         contracts := 2 }] (by decide)).2.2.1
    { symbol := "BTC/USDT", side := "short", markPrice := 60000,
      contracts := 2 } (by decide) (by decide) (by decide)


lemma groupKeys_go_mem (sigs : List TradingSignal) :
    ∀ (acc : List (String × SignalKind)) (key : String × SignalKind),
      (key ∈ sigs.foldl (fun acc s =>
          if (s.symbol, s.kind) ∈ acc then acc
          else acc ++ [(s.symbol, s.kind)]) acc) ↔
        key ∈ acc ∨ ∃ s ∈ sigs, s.symbol = key.1 ∧ s.kind = key.2 := by
  induction sigs with
  | nil => intro acc key; simp
  | cons s t ih =>
    intro acc key
    simp only [List.foldl_cons]
    have hPs : (s.symbol = key.1 ∧ s.kind = key.2) ↔
        key = (s.symbol, s.kind) := by
      obtain ⟨k1, k2⟩ := key
      constructor
      · rintro ⟨h1, h2⟩
        simp [h1, h2]
      · intro h
        simp only [Prod.mk.injEq] at h
        exact ⟨h.1.symm, h.2.symm⟩
    by_cases hm : (s.symbol, s.kind) ∈ acc
    · rw [if_pos hm, ih]
      constructor
      · rintro (h | h)
        · exact Or.inl h
        · exact Or.inr (by
            obtain ⟨s', hs', hp⟩ := h
            exact ⟨s', List.mem_cons_of_mem s hs', hp⟩)
      · rintro (h | h)
        · exact Or.inl h
        · obtain ⟨s', hs', hp⟩ := h
          rcases List.mem_cons.mp hs' with h' | h'
          · subst h'
            exact Or.inl (hPs.mp hp ▸ hm)
          · exact Or.inr ⟨s', h', hp⟩
    · rw [if_neg hm, ih]
      constructor
      · rintro (h | h)
        · rcases List.mem_append.mp h with h' | h'
          · exact Or.inl h'
          · simp only [List.mem_singleton] at h'
            exact Or.inr ⟨s, List.mem_cons_self s t, hPs.mpr h'⟩
        · obtain ⟨s', hs', hp⟩ := h
          exact Or.inr ⟨s', List.mem_cons_of_mem s hs', hp⟩
      · rintro (h | h)
        · exact Or.inl (List.mem_append.mpr (Or.inl h))
        · obtain ⟨s', hs', hp⟩ := h
          rcases List.mem_cons.mp hs' with h' | h'
          · subst h'
            exact Or.inl (List.mem_append.mpr (Or.inr (by
              simp [hPs.mp hp])))
          · exact Or.inr ⟨s', h', hp⟩

lemma groupKeys_mem (sigs : List TradingSignal)
    (key : String × SignalKind) :
    key ∈ groupKeys sigs ↔
      ∃ s ∈ sigs, s.symbol = key.1 ∧ s.kind = key.2 := by
  rw [groupKeys, groupKeys_go_mem]
  simp

lemma emitForKey_eq_some (minC : Rat) (n : Nat) (now : Rat)
    (sigs : List TradingSignal) (key : String × SignalKind)
    (t : TradingSignal)
    (h : emitForKey minC n now sigs key = some t) :
    minC ≤ ((groupOf sigs key).length : Rat) / (n : Rat) ∧
    t.symbol = key.1 ∧ t.kind = key.2 ∧
    t.price = ((groupOf sigs key).map (·.price)).sum
      / ((groupOf sigs key).length : Rat) ∧
    t.confidence = ((groupOf sigs key).map (·.confidence)).sum
      / ((groupOf sigs key).length : Rat)
      * (((groupOf sigs key).length : Rat) / (n : Rat)) ∧
    t.timestamp = now := by
  by_cases hr : minC ≤ ((groupOf sigs key).length : Rat) / (n : Rat)
  · simp only [emitForKey, hr, if_true, Option.some.injEq] at h
    subst h
    exact ⟨hr, rfl, rfl, rfl, rfl, rfl⟩
  · simp only [emitForKey, hr, if_false] at h
    exact absurd h (by simp)

lemma emitForKey_hit (minC : Rat) (n : Nat) (now : Rat)
    (sigs : List TradingSignal) (key : String × SignalKind)
    (hr : minC ≤ ((groupOf sigs key).length : Rat) / (n : Rat)) :
    ∃ t, emitForKey minC n now sigs key = some t ∧
      t.symbol = key.1 ∧ t.kind = key.2 := by
  simp only [emitForKey, hr, if_true]
  exact ⟨_, rfl, rfl, rfl⟩


/-- Concrete evaluation cycle for C6: two of three sources agree on a
(X, LongEntry) signal; a third reports (Y, LongEntry). -/
def consensusCycle : List TradingSignal :=
  [ { kind := .longEntry, symbol := "X", price := 100, confidence := 8/10,
      timestamp := 0, metadata := .base 0 },
    { kind := .longEntry, symbol := "X", price := 102, confidence := 6/10,
      timestamp := 0, metadata := .base 1 },
    { kind := .longEntry, symbol := "Y", price := 50, confidence := 9/10,
      timestamp := 0, metadata := .base 2 } ]

/-- C6: with one registered source `_aggregate_signals` is a pass-through;
with several sources every emitted signal's (symbol, kind) group reaches
the consensus threshold and carries confidence = mean × consensus and
price = mean, every group reaching the threshold is emitted, and in the
concrete 3-source cycle at threshold 0.6 the two-member (X, LongEntry)
group is emitted (confidence (7/10)·(2/3) = 7/15, price 101) while the
one-member (Y, LongEntry) group is suppressed. -/
theorem aggregateSignals_consensus (minC : Rat) (n : Nat) (now : Rat)
    (sigs : List TradingSignal) :
    (aggregateSignals minC 1 now sigs = sigs) ∧
    (n ≠ 1 →
      ∀ t ∈ aggregateSignals minC n now sigs,
        groupOf sigs (t.symbol, t.kind) ≠ [] ∧
        minC ≤ ((groupOf sigs (t.symbol, t.kind)).length : Rat) / (n : Rat) ∧
        t.price = ((groupOf sigs (t.symbol, t.kind)).map (·.price)).sum
          / ((groupOf sigs (t.symbol, t.kind)).length : Rat) ∧
        t.confidence =
          ((groupOf sigs (t.symbol, t.kind)).map (·.confidence)).sum
            / ((groupOf sigs (t.symbol, t.kind)).length : Rat)
            * (((groupOf sigs (t.symbol, t.kind)).length : Rat) / (n : Rat)) ∧
        t.timestamp = now) ∧
    (n ≠ 1 →
      ∀ sym k, (∃ s ∈ sigs, s.symbol = sym ∧ s.kind = k) →
        minC ≤ ((groupOf sigs (sym, k)).length : Rat) / (n : Rat) →
        ∃ t ∈ aggregateSignals minC n now sigs,
          t.symbol = sym ∧ t.kind = k) ∧
    ((aggregateSignals (3/5) 3 0 consensusCycle).map fun t =>
        (t.symbol, t.kind, t.price, t.confidence))
      = [("X", SignalKind.longEntry, 101, 7/15)] := by
  refine ⟨by simp [aggregateSignals], ?_, ?_, ?_⟩
  · intro hn t ht
    simp only [aggregateSignals, if_neg hn] at ht
    obtain ⟨key, hkey, hemit⟩ := List.mem_filterMap.mp ht
    obtain ⟨hr, hsym, hkind, hprice, hconf, hts⟩ :=
      emitForKey_eq_some minC n now sigs key t hemit
    have hkeq : (t.symbol, t.kind) = key := by
      rw [hsym, hkind]
    rw [hkeq]
    obtain ⟨s, hs, hp1, hp2⟩ := (groupKeys_mem sigs key).mp hkey
    have hsg : s ∈ groupOf sigs key := by
      simp only [groupOf, List.mem_filter]
      exact ⟨hs, by simp [hp1, hp2]⟩
    exact ⟨List.ne_nil_of_mem hsg, hr, hprice, hconf, hts⟩
  · intro hn sym k hex hr
    have hkey : (sym, k) ∈ groupKeys sigs :=
      (groupKeys_mem sigs (sym, k)).mpr (by simpa using hex)
    obtain ⟨t, hemit, hsym, hkind⟩ :=
      emitForKey_hit minC n now sigs (sym, k) hr
    refine ⟨t, ?_, hsym, hkind⟩
    simp only [aggregateSignals, if_neg hn]
    exact List.mem_filterMap.mpr ⟨(sym, k), hkey, hemit⟩
  · norm_num +decide [aggregateSignals, groupKeys, groupOf, emitForKey,
      consensusCycle, List.filterMap_cons, List.filter_cons, List.sum_cons]

/-- C6 witness: pass-through at one source, and the emitted two-of-three
group in the concrete cycle. -/
theorem aggregateSignals_consensus_witness :
    aggregateSignals (3/5) 1 0 consensusCycle = consensusCycle ∧
    (∃ t ∈ aggregateSignals (3/5) 3 0 consensusCycle,
       t.symbol = "X" ∧ t.kind = SignalKind.longEntry) :=
  ⟨(aggregateSignals_consensus (3/5) 3 0 consensusCycle).1,
   (aggregateSignals_consensus (3/5) 3 0 consensusCycle).2.2.1
     (by decide) "X" SignalKind.longEntry
     ⟨{ kind := .longEntry, symbol := "X", price := 100,
        confidence := 8/10, timestamp := 0, metadata := .base 0 },
      by simp [consensusCycle], rfl, rfl⟩
     (by norm_num +decide [groupOf, consensusCycle, List.filter_cons])⟩


/-- `TradingBot.stop` with `_close_all_positions` and
`_disconnect_services` (src/main.py lines 105-121 and 308-325): close all
positions through the executor, wait a 10-second settle window —
`postSettle` gives the open positions the executor reports after the wait —
and warn iff any remain (a failure in the close step is caught, logged and
skips the warning check); then `_disconnect_services` runs
`executor.shutdown()`.  Returns the final executor state and whether the
still-open warning was emitted. -/
def botStop (venueOk : String → Bool)
    (postSettle : ExecutorState → List Position) (s : ExecutorState) :
    ExecutorState × Bool :=
  match closeAllPositions s with
  | .ok s' => (shutdown venueOk s', !(postSettle s').isEmpty)
  | .error _ => (shutdown venueOk s, false)

/-- Executor state before shutdown in the concrete C4 run: streaming on,
one open long position with a live book, nothing placed. -/
def preShutdownState : ExecutorState :=
  { streaming := true
    activeOrders := []
    positions := [{ symbol := "ETH/USDT", side := "long",
                    entryPrice := 100, amount := 2, entryTime := 0 }]
    books := [("ETH/USDT", { bids := [⟨99, 1⟩], asks := [⟨101, 1⟩] })]
    placed := [] }

/-- C4 counterexample: `TradingExecutor.shutdown` run on a state with an
open position places no closing order and leaves the position open — it
only stops streaming and cancels tracked orders; the flatten/settle/warn
sequence the claim attributes to it lives in `TradingBot.stop`. -/
theorem shutdown_no_flatten :
    (shutdown (fun _ => true) preShutdownState).placed = [] ∧
    (shutdown (fun _ => true) preShutdownState).positions
      = preShutdownState.positions ∧
    preShutdownState.positions.filter (fun p => p.status == "open")
      ≠ [] := by
  decide

/-- C4 amended: `shutdown` stops order-book streaming and cancels every
tracked order (it never touches positions or places an order); the
flattening belongs to `close_all_positions` — one closing request per open
position, at the best bid (long) or best ask (short) of the book snapshot,
falling back to a market order with no price when no snapshot exists — and
the 10-second settle window plus still-open warning belong to
`TradingBot.stop`, which calls `close_all_positions` and only afterwards
`shutdown`. -/
theorem shutdown_delegates_flatten (venueOk : String → Bool)
    (s : ExecutorState) :
    (shutdown venueOk s).streaming = false ∧
    (shutdown venueOk s).positions = s.positions ∧
    (shutdown venueOk s).placed = s.placed ∧
    (∀ o ∈ s.activeOrders, venueOk o.id = true →
       ∃ o' ∈ (shutdown venueOk s).activeOrders,
         o'.id = o.id ∧ o'.status = .cancelled) ∧
    (∀ p : Position, s.books.lookup p.symbol = none →
       closingRequest s.books p
         = .ok { symbol := p.symbol,
                 side := if p.side == "long" then "sell" else "buy",
                 orderType := "market", amount := p.amount,
                 price := none }) ∧
    (∀ (p : Position) ob lvl rest, s.books.lookup p.symbol = some ob →
       p.side = "long" → ob.bids = lvl :: rest →
       closingRequest s.books p
         = .ok { symbol := p.symbol, side := "sell", orderType := "limit",
                 amount := p.amount, price := some lvl.price }) ∧
    (∀ (p : Position) ob lvl rest, s.books.lookup p.symbol = some ob →
       p.side ≠ "long" → ob.asks = lvl :: rest →
       closingRequest s.books p
         = .ok { symbol := p.symbol, side := "buy", orderType := "limit",
                 amount := p.amount, price := some lvl.price }) ∧
    (∀ reqs, (s.positions.filter fun p => p.status == "open").mapM
        (closingRequest s.books) = .ok reqs →
       closeAllPositions s = .ok { s with placed := s.placed ++ reqs }) ∧
    (∀ (postSettle : ExecutorState → List Position) s',
       closeAllPositions s = .ok s' →
       botStop venueOk postSettle s
         = (shutdown venueOk s', !(postSettle s').isEmpty)) := by
  refine ⟨rfl, rfl, rfl, ?_, ?_, ?_, ?_, ?_, ?_⟩
  · intro o ho hok
    refine ⟨{ o with status := .cancelled }, ?_, rfl, rfl⟩
    simp only [shutdown, cancelAllOrders]
    exact List.mem_map.mpr ⟨o, ho, by simp [hok]⟩
  · intro p h
    simp [closingRequest, h]
  · intro p ob lvl rest hlk hside hbids
    simp [closingRequest, hlk, hside, hbids]
  · intro p ob lvl rest hlk hside hasks
    simp [closingRequest, hlk, beq_false_of_ne hside, hasks]
  · intro reqs hm
    simp only [closeAllPositions]
    rw [hm]
    rfl
  · intro postSettle s' h
    simp [botStop, h]

/-- C4 amended witness: on the concrete pre-shutdown state,
`close_all_positions` issues exactly the limit sell at the best bid for the
open long position. -/
theorem shutdown_delegates_flatten_witness :
    closeAllPositions preShutdownState
      = .ok { preShutdownState with
              placed := preShutdownState.placed
                ++ [{ symbol := "ETH/USDT", side := "sell",
                      orderType := "limit", amount := 2,
                      price := some 99 }] } :=
  (shutdown_delegates_flatten (fun _ => true)
      preShutdownState).2.2.2.2.2.2.2.1
    [{ symbol := "ETH/USDT", side := "sell", orderType := "limit",
       amount := 2, price := some 99 }] (by decide)

end BinanceARDL
